import Mathlib

/-!
Verification development for the Flense TypeScript SDK (document-parsing
client). The definitions below are a shallow embedding of the job-lifecycle
logic of the SDK source: the deferred `ParseJob` handle with its memoized
job-creation promise and fluent configuration surface, the `waitForJob`
polling loop, the server-sent-event adapter of `subscribeToJob`, and the
cancellation race handling of `ParseJob.subscribe`.
-/

/- ------------------------------------------------------------------
   Data model: parse options (interface ParseOptions, src/unnamed/part_000
   lines 161-182) and the ParseJob handle state (lines 312-325).
   ------------------------------------------------------------------ -/

/-- Mirror of the `ParseOptions` interface: the three boolean feature
toggles carried by the ParseJob class in the source (`ocr`, `tables`,
`images`). -/
structure ParseOptions where
  ocr : Bool
  tables : Bool
  images : Bool
deriving DecidableEq, Repr

/-- Default options of a fresh ParseJob (`this._options`, source lines
316-320): every feature toggle is off. -/
def initOptions : ParseOptions := { ocr := false, tables := false, images := false }

/-- Which consumption primitive fired a trigger: awaiting the handle
(`then`), `wait()`, or `subscribe()`. All three call `getJobId()`. -/
inductive TriggerKind where
  | thenAwait
  | wait
  | subscribe
deriving DecidableEq, Repr

/-- One operation performed on a ParseJob handle: a fluent configuration
call (`withOCR` / `withTables` / `withImages`, source lines 342-385) or a
trigger of the creation operation (`then` / `wait` / `subscribe`, which
each begin by calling `getJobId()`, source lines 412-490). -/
inductive JobOp where
  | withOCR (enabled : Bool)
  | withTables (enabled : Bool)
  | withImages (enabled : Bool)
  | trigger (t : TriggerKind)
deriving DecidableEq, Repr

/-- Client-side state of one ParseJob handle: the mutable `_options`
record and the memoized `jobIdPromise` cell. The cell records the options
bundle passed to `createJob` when the promise was created (`getJobId()`,
source lines 394-402, memoizes `createJob(this._options)`; `parseUrl`
serializes exactly that bundle into the creation request body at lines
640-644, synchronously before its first await). `none` means creation has
not been triggered yet. -/
structure PJState where
  options : ParseOptions
  jobIdPromise : Option ParseOptions
deriving DecidableEq, Repr

/-- State of a freshly constructed ParseJob: default options and no
memoized creation promise. -/
def pjInit : PJState := { options := initOptions, jobIdPromise := none }

/-- Single step of the ParseJob handle. Fluent calls assign one field of
`_options`; a trigger runs `getJobId()`: when `jobIdPromise` is unset it
invokes `createJob` with the current options (capturing them in the
memoized cell), otherwise it returns the existing promise unchanged. -/
def pjStep (s : PJState) : JobOp → PJState
  | JobOp.withOCR b => { s with options := { s.options with ocr := b } }
  | JobOp.withTables b => { s with options := { s.options with tables := b } }
  | JobOp.withImages b => { s with options := { s.options with images := b } }
  | JobOp.trigger _ =>
    match s.jobIdPromise with
    | none => { s with jobIdPromise := some s.options }
    | some _ => s

/-- Run a sequence of handle operations (the interleaving chosen by the
caller, executed in order by the single-threaded event loop). -/
def pjRun : PJState → List JobOp → PJState
  | s, [] => s
  | s, op :: rest => pjRun (pjStep s op) rest

/-- How many invocations of `createJob` this single operation performs:
one when it is a trigger finding the memoized cell empty, zero
otherwise. -/
def createsNow (s : PJState) : JobOp → Nat
  | JobOp.trigger _ =>
    match s.jobIdPromise with
    | none => 1
    | some _ => 0
  | _ => 0

/-- Total number of `createJob` network invocations performed while
running a sequence of handle operations. -/
def createCalls : PJState → List JobOp → Nat
  | _, [] => 0
  | s, op :: rest => createsNow s op + createCalls (pjStep s op) rest

/-- The observation a single operation makes: a trigger observes the
memoized promise cell (the one `getJobId()` returns to it); configuration
calls observe nothing. -/
def observesNow (s : PJState) : JobOp → List (Option ParseOptions)
  | JobOp.trigger t => [(pjStep s (JobOp.trigger t)).jobIdPromise]
  | _ => []

/-- The sequence of promise cells observed by the triggers of a run, in
order. -/
def observations : PJState → List JobOp → List (Option ParseOptions)
  | _, [] => []
  | s, op :: rest => observesNow s op ++ observations (pjStep s op) rest

/- Helper lemmas about the memoized promise cell. -/

theorem pjStep_promise_mono (s : PJState) (op : JobOp) (p : ParseOptions)
    (h : s.jobIdPromise = some p) : (pjStep s op).jobIdPromise = some p := by
  cases op <;> simp [pjStep, h]

theorem pjRun_promise_mono (l : List JobOp) (s : PJState) (p : ParseOptions)
    (h : s.jobIdPromise = some p) : (pjRun s l).jobIdPromise = some p := by
  induction l generalizing s with
  | nil => simpa [pjRun] using h
  | cons op rest ih => exact ih (pjStep s op) (pjStep_promise_mono s op p h)

theorem createCalls_of_some (l : List JobOp) (s : PJState) (p : ParseOptions)
    (h : s.jobIdPromise = some p) : createCalls s l = 0 := by
  induction l generalizing s with
  | nil => rfl
  | cons op rest ih =>
    have hnow : createsNow s op = 0 := by cases op <;> simp [createsNow, h]
    simp [createCalls, hnow, ih (pjStep s op) (pjStep_promise_mono s op p h)]

theorem observations_of_some (l : List JobOp) (s : PJState) (p : ParseOptions)
    (h : s.jobIdPromise = some p) :
    ∀ o ∈ observations s l, o = some p := by
  induction l generalizing s with
  | nil => intro o ho; simp [observations] at ho
  | cons op rest ih =>
    intro o ho
    simp only [observations, List.mem_append] at ho
    rcases ho with ho | ho
    · cases op with
      | trigger t =>
        simp only [observesNow, List.mem_singleton] at ho
        rw [ho]
        exact pjStep_promise_mono s (JobOp.trigger t) p h
      | withOCR b => simp [observesNow] at ho
      | withTables b => simp [observesNow] at ho
      | withImages b => simp [observesNow] at ho
    · exact ih (pjStep s op) (pjStep_promise_mono s op p h) o ho

theorem pjStep_promise_config (s : PJState) (op : JobOp)
    (h : ∀ t, op ≠ JobOp.trigger t) :
    (pjStep s op).jobIdPromise = s.jobIdPromise := by
  cases op with
  | trigger t => exact absurd rfl (h t)
  | withOCR b => rfl
  | withTables b => rfl
  | withImages b => rfl

theorem pjRun_promise_no_trigger (l : List JobOp) (s : PJState)
    (h : ∀ t, JobOp.trigger t ∉ l) :
    (pjRun s l).jobIdPromise = s.jobIdPromise := by
  induction l generalizing s with
  | nil => rfl
  | cons op rest ih =>
    have hop : ∀ t, op ≠ JobOp.trigger t := by
      intro t he
      exact h t (by simp [he])
    have hrest : ∀ t, JobOp.trigger t ∉ rest := by
      intro t hm
      exact h t (List.mem_cons_of_mem _ hm)
    rw [pjRun, ih (pjStep s op) hrest, pjStep_promise_config s op hop]

/-- Exactly-once creation starting from an untriggered cell: any run
containing at least one trigger invokes `createJob` exactly once, and
every trigger observes the one memoized promise. -/
theorem c1_aux (ops : List JobOp) (s : PJState)
    (hs : s.jobIdPromise = none) (h : ∃ t, JobOp.trigger t ∈ ops) :
    createCalls s ops = 1 ∧
      ∃ p, (pjRun s ops).jobIdPromise = some p ∧
        ∀ o ∈ observations s ops, o = some p := by
  induction ops generalizing s with
  | nil =>
    obtain ⟨t, ht⟩ := h
    simp at ht
  | cons op rest ih =>
    cases op with
    | trigger t =>
      have hstep : pjStep s (JobOp.trigger t) = { s with jobIdPromise := some s.options } := by
        simp [pjStep, hs]
      constructor
      · have h1 : createsNow s (JobOp.trigger t) = 1 := by simp [createsNow, hs]
        have h0 : createCalls (pjStep s (JobOp.trigger t)) rest = 0 := by
          apply createCalls_of_some rest _ s.options
          rw [hstep]
        simp [createCalls, h1, h0]
      · refine ⟨s.options, ?_, ?_⟩
        · rw [pjRun]
          apply pjRun_promise_mono
          rw [hstep]
        · intro o ho
          simp only [observations, List.mem_append] at ho
          rcases ho with ho | ho
          · simp only [observesNow, List.mem_singleton] at ho
            rw [ho, hstep]
          · refine observations_of_some rest _ s.options ?_ o ho
            rw [hstep]
    | withOCR b =>
      have hs' : (pjStep s (JobOp.withOCR b)).jobIdPromise = none := hs
      have hrest : ∃ t, JobOp.trigger t ∈ rest := by
        obtain ⟨t, ht⟩ := h
        exact ⟨t, by simpa using ht⟩
      obtain ⟨hc, p, hp, hobs⟩ := ih (pjStep s (JobOp.withOCR b)) hs' hrest
      refine ⟨by simp [createCalls, createsNow, hc], p, by simpa [pjRun] using hp, ?_⟩
      intro o ho
      simp only [observations, observesNow, List.nil_append] at ho
      exact hobs o ho
    | withTables b =>
      have hs' : (pjStep s (JobOp.withTables b)).jobIdPromise = none := hs
      have hrest : ∃ t, JobOp.trigger t ∈ rest := by
        obtain ⟨t, ht⟩ := h
        exact ⟨t, by simpa using ht⟩
      obtain ⟨hc, p, hp, hobs⟩ := ih (pjStep s (JobOp.withTables b)) hs' hrest
      refine ⟨by simp [createCalls, createsNow, hc], p, by simpa [pjRun] using hp, ?_⟩
      intro o ho
      simp only [observations, observesNow, List.nil_append] at ho
      exact hobs o ho
    | withImages b =>
      have hs' : (pjStep s (JobOp.withImages b)).jobIdPromise = none := hs
      have hrest : ∃ t, JobOp.trigger t ∈ rest := by
        obtain ⟨t, ht⟩ := h
        exact ⟨t, by simpa using ht⟩
      obtain ⟨hc, p, hp, hobs⟩ := ih (pjStep s (JobOp.withImages b)) hs' hrest
      refine ⟨by simp [createCalls, createsNow, hc], p, by simpa [pjRun] using hp, ?_⟩
      intro o ho
      simp only [observations, observesNow, List.nil_append] at ho
      exact hobs o ho

/-- C1: for every sequence of operations on one ParseJob handle that
contains at least one trigger (awaiting the handle, wait(), or
subscribe(), in any interleaving), `createJob` is invoked exactly once;
there is a single captured payload held by the memoized promise, every
trigger observes that same promise, and therefore — for whatever job
identifier the server assigns to that one creation call (modelled by an
arbitrary function `create` of the payload) — every trigger observes the
same resolved job identifier. -/
theorem c1_exactly_once_creation (ops : List JobOp) (create : ParseOptions → String)
    (h : ∃ t, JobOp.trigger t ∈ ops) :
    createCalls pjInit ops = 1 ∧
      ∃ p, (pjRun pjInit ops).jobIdPromise = some p ∧
        (∀ o ∈ observations pjInit ops, o = some p) ∧
        (∀ o ∈ observations pjInit ops, Option.map create o = some (create p)) := by
  obtain ⟨hc, p, hp, hobs⟩ := c1_aux ops pjInit rfl h
  exact ⟨hc, p, hp, hobs, fun o ho => by rw [hobs o ho]; rfl⟩

/-- Concrete instance of C1: configure OCR, then trigger via wait(),
subscribe() and awaiting, all on one handle. -/
theorem c1_exactly_once_creation_witness :
    (∃ t, JobOp.trigger t ∈
        [JobOp.withOCR true, JobOp.trigger TriggerKind.wait,
         JobOp.trigger TriggerKind.subscribe, JobOp.trigger TriggerKind.thenAwait]) ∧
    (createCalls pjInit
        [JobOp.withOCR true, JobOp.trigger TriggerKind.wait,
         JobOp.trigger TriggerKind.subscribe, JobOp.trigger TriggerKind.thenAwait] = 1 ∧
      ∃ p, (pjRun pjInit
          [JobOp.withOCR true, JobOp.trigger TriggerKind.wait,
           JobOp.trigger TriggerKind.subscribe, JobOp.trigger TriggerKind.thenAwait]).jobIdPromise = some p ∧
        (∀ o ∈ observations pjInit
            [JobOp.withOCR true, JobOp.trigger TriggerKind.wait,
             JobOp.trigger TriggerKind.subscribe, JobOp.trigger TriggerKind.thenAwait], o = some p) ∧
        (∀ o ∈ observations pjInit
            [JobOp.withOCR true, JobOp.trigger TriggerKind.wait,
             JobOp.trigger TriggerKind.subscribe, JobOp.trigger TriggerKind.thenAwait],
          Option.map (fun _ => "job_1") o = some ((fun _ => "job_1") p))) :=
  ⟨⟨TriggerKind.wait, by decide⟩,
    c1_exactly_once_creation _ (fun _ => "job_1") ⟨TriggerKind.wait, by decide⟩⟩

theorem pjRun_append (a b : List JobOp) (s : PJState) :
    pjRun s (a ++ b) = pjRun (pjRun s a) b := by
  induction a generalizing s with
  | nil => rfl
  | cons op rest ih => simp [pjRun, ih]

/-- C2: every fluent configuration call made before the first trigger is
reflected in the payload captured by the single creation call — the
memoized promise records exactly the options obtained by folding the
pre-trigger configuration calls over the defaults — and no operation
performed after that first trigger (further configuration calls or
triggers, the arbitrary `post`) alters the captured payload. -/
theorem c2_config_captured_at_first_trigger
    (pre post : List JobOp) (t : TriggerKind)
    (hpre : ∀ u, JobOp.trigger u ∉ pre) :
    (pjRun pjInit (pre ++ JobOp.trigger t :: post)).jobIdPromise =
      some (pjRun pjInit pre).options := by
  rw [pjRun_append]
  have hnone : (pjRun pjInit pre).jobIdPromise = none :=
    pjRun_promise_no_trigger pre pjInit hpre
  rw [pjRun]
  apply pjRun_promise_mono
  simp [pjStep, hnone]

/-- Concrete instance of C2: OCR and tables enabled before the first
trigger are both captured; a withImages call after the trigger leaves the
captured payload unchanged. -/
theorem c2_config_captured_at_first_trigger_witness :
    (∀ u, JobOp.trigger u ∉ [JobOp.withOCR true, JobOp.withTables true]) ∧
    (pjRun pjInit
        ([JobOp.withOCR true, JobOp.withTables true] ++
          JobOp.trigger TriggerKind.wait :: [JobOp.withImages true])).jobIdPromise =
      some (pjRun pjInit [JobOp.withOCR true, JobOp.withTables true]).options :=
  ⟨by intro u; simp,
    c2_config_captured_at_first_trigger
      [JobOp.withOCR true, JobOp.withTables true] [JobOp.withImages true]
      TriggerKind.wait (by intro u; simp)⟩

/- ------------------------------------------------------------------
   Polling wait-loop: Flense.waitForJob (src/unnamed/part_000 lines
   940-964), consumed by ParseJob.wait (lines 438-440).
   ------------------------------------------------------------------ -/

/-- Mirror of the `output` field of `QueueJobStatusResponse` (source
lines 211-219): optional extracted content and markdown. -/
structure QueueJobOutput where
  content : Option String
  markdown : Option String
deriving DecidableEq, Repr

/-- Mirror of `QueueJobStatusResponse`: one status poll's response body. -/
structure QueueJobStatusResponse where
  id : String
  state : String
  output : Option QueueJobOutput
  error : Option String
deriving DecidableEq, Repr

/-- Mirror of the `JobResult` interface (source lines 73-80). -/
structure JobResult where
  success : Bool
  markdown : String
  state : String
deriving DecidableEq, Repr

/-- Outcome of running the wait-loop against a finite cut of the server's
status-response sequence: success, failure (a thrown Error message), or
`pending` when the loop has consumed every modelled response without
observing a terminal state — i.e. it is still polling. -/
inductive WaitOutcome where
  | success (result : JobResult)
  | failure (message : String)
  | pending
deriving DecidableEq, Repr

/-- Trace of a wait-loop run: its outcome plus the timestamp (in ms from
the first poll) at which each status request was issued. -/
structure WaitTrace where
  outcome : WaitOutcome
  pollTimes : List Nat
deriving DecidableEq, Repr

/-- The fixed polling interval of `waitForJob` (`const pollInterval =
1000`, source line 941), in milliseconds. -/
def pollInterval : Nat := 1000

/-- JavaScript's `a || b` on strings: the empty string is falsy, so the
expression yields `b` exactly when `a` is empty. -/
def jsOrString (a b : String) : String := if a = "" then b else a

/-- The markdown of a successful result (source line 951):
`response.output?.markdown || response.output?.content || ""` — optional
chaining makes an absent field undefined, and both undefined and the
empty string are falsy. -/
def completedMarkdown (r : QueueJobStatusResponse) : String :=
  jsOrString ((r.output.bind QueueJobOutput.markdown).getD "")
    ((r.output.bind QueueJobOutput.content).getD "")

/-- The message of the Error thrown on a failed state (source lines
957-959): `Job <id> failed: <error ?? "Unknown error">` — `??` is nullish
coalescing, replacing only an absent error field. -/
def failMessage (jobId : String) (err : Option String) : String :=
  "Job " ++ jobId ++ " failed: " ++ err.getD "Unknown error"

/-- One loop iteration of `waitForJob`, polling at time `t`: on
`completed` return the success result; on `failed` throw; on any other
state sleep `pollInterval` ms and poll the next response. An exhausted
response list leaves the loop pending (still polling). -/
def waitForJobAux (jobId : String) (t : Nat) :
    List QueueJobStatusResponse → WaitTrace
  | [] => { outcome := WaitOutcome.pending, pollTimes := [] }
  | r :: rest =>
    if r.state = "completed" then
      { outcome := WaitOutcome.success
          { success := true, markdown := completedMarkdown r, state := r.state },
        pollTimes := [t] }
    else if r.state = "failed" then
      { outcome := WaitOutcome.failure (failMessage jobId r.error), pollTimes := [t] }
    else
      let w := waitForJobAux jobId (t + pollInterval) rest
      { outcome := w.outcome, pollTimes := t :: w.pollTimes }

/-- `Flense.waitForJob jobId`, run against a finite cut of the server's
successive status responses, first poll at time 0. -/
def waitForJob (jobId : String) (resps : List QueueJobStatusResponse) : WaitTrace :=
  waitForJobAux jobId 0 resps

/-- C3: when successive polls return states [created, active, completed],
wait() issues exactly 3 status requests, at times 0, 1000 and 2000 ms
(the fixed 1000 ms interval apart), and resolves with a success result
whose markdown is the completed output's markdown, falling back to the
output's content when the markdown field is absent. -/
theorem c3_created_active_completed (jobId : String)
    (r1 r2 r3 : QueueJobStatusResponse)
    (h1 : r1.state = "created") (h2 : r2.state = "active")
    (h3 : r3.state = "completed") :
    (waitForJob jobId [r1, r2, r3]).pollTimes = [0, pollInterval, 2 * pollInterval] ∧
    pollInterval = 1000 ∧
    (waitForJob jobId [r1, r2, r3]).outcome =
      WaitOutcome.success
        { success := true, markdown := completedMarkdown r3, state := "completed" } ∧
    (∀ m, r3.output.bind QueueJobOutput.markdown = some m → m ≠ "" →
      completedMarkdown r3 = m) ∧
    (r3.output.bind QueueJobOutput.markdown = none →
      completedMarkdown r3 = (r3.output.bind QueueJobOutput.content).getD "") := by
  refine ⟨?_, rfl, ?_, ?_, ?_⟩
  · simp [waitForJob, waitForJobAux, h1, h2, h3, pollInterval]
  · simp [waitForJob, waitForJobAux, h1, h2, h3]
  · intro m hm hne
    simp [completedMarkdown, hm, jsOrString, hne]
  · intro hm
    simp [completedMarkdown, hm, jsOrString]

/-- A poll response in state created, with no output yet. -/
def respCreated : QueueJobStatusResponse :=
  { id := "j1", state := "created", output := none, error := none }

/-- A poll response in state active, with no output yet. -/
def respActive : QueueJobStatusResponse :=
  { id := "j1", state := "active", output := none, error := none }

/-- A poll response in state completed carrying markdown and content. -/
def respCompleted : QueueJobStatusResponse :=
  { id := "j1", state := "completed",
    output := some { content := some "text", markdown := some "# doc" },
    error := none }

/-- Concrete instance of C3: a job polled as created, then active, then
completed with markdown output. -/
theorem c3_created_active_completed_witness :
    respCreated.state = "created" ∧ respActive.state = "active" ∧
    respCompleted.state = "completed" ∧
    ((waitForJob "j1" [respCreated, respActive, respCompleted]).pollTimes =
        [0, pollInterval, 2 * pollInterval] ∧
      pollInterval = 1000 ∧
      (waitForJob "j1" [respCreated, respActive, respCompleted]).outcome =
        WaitOutcome.success
          { success := true, markdown := completedMarkdown respCompleted,
            state := "completed" } ∧
      (∀ m, respCompleted.output.bind QueueJobOutput.markdown = some m → m ≠ "" →
        completedMarkdown respCompleted = m) ∧
      (respCompleted.output.bind QueueJobOutput.markdown = none →
        completedMarkdown respCompleted =
          (respCompleted.output.bind QueueJobOutput.content).getD "")) :=
  ⟨rfl, rfl, rfl,
    c3_created_active_completed "j1" respCreated respActive respCompleted rfl rfl rfl⟩

/-- C4: whenever a poll during wait()/waitForJob returns state failed —
after any run of non-terminal polls — the loop stops with a failure whose
message carries the job identifier and the server-supplied error message,
or the generic message "Unknown error" when the server supplies none; the
number of status requests is the number of non-terminal polls plus one. -/
theorem c4_failed_poll (jobId : String)
    (pre : List QueueJobStatusResponse) (r : QueueJobStatusResponse)
    (hpre : ∀ q ∈ pre, q.state ≠ "completed" ∧ q.state ≠ "failed")
    (hr : r.state = "failed") :
    (waitForJob jobId (pre ++ [r])).pollTimes.length = pre.length + 1 ∧
    (∀ msg, r.error = some msg →
      (waitForJob jobId (pre ++ [r])).outcome =
        WaitOutcome.failure ("Job " ++ jobId ++ " failed: " ++ msg)) ∧
    (r.error = none →
      (waitForJob jobId (pre ++ [r])).outcome =
        WaitOutcome.failure ("Job " ++ jobId ++ " failed: " ++ "Unknown error")) := by
  have key : ∀ t, (waitForJobAux jobId t (pre ++ [r])).pollTimes.length = pre.length + 1 ∧
      (waitForJobAux jobId t (pre ++ [r])).outcome =
        WaitOutcome.failure (failMessage jobId r.error) := by
    induction pre with
    | nil =>
      intro t
      have hnc : r.state ≠ "completed" := by rw [hr]; decide
      simp [waitForJobAux, hnc, hr]
    | cons q rest ih =>
      intro t
      have hq := hpre q (List.mem_cons_self q rest)
      have hrest : ∀ x ∈ rest, x.state ≠ "completed" ∧ x.state ≠ "failed" :=
        fun x hx => hpre x (List.mem_cons_of_mem q hx)
      have ih2 := (fun pre2 => ih pre2) hrest (t + pollInterval)
      simp only [List.cons_append, waitForJobAux, hq.1, hq.2, if_neg]
      simp [ih2.1, ih2.2]
  refine ⟨(key 0).1, ?_, ?_⟩
  · intro msg hmsg
    have h2 := (key 0).2
    rw [waitForJob, h2, failMessage, hmsg]
    rfl
  · intro hmsg
    have h2 := (key 0).2
    rw [waitForJob, h2, failMessage, hmsg]
    rfl

/-- A poll response in state created for job j2. -/
def resp2Created : QueueJobStatusResponse :=
  { id := "j2", state := "created", output := none, error := none }

/-- A poll response in state failed carrying the server error "bad pdf". -/
def resp2Failed : QueueJobStatusResponse :=
  { id := "j2", state := "failed", output := none, error := some "bad pdf" }

/-- Concrete instance of C4: status sequence [created, failed] with
server error "bad pdf" yields exactly 2 polls and a failure carrying
"bad pdf". -/
theorem c4_failed_poll_witness :
    (∀ q ∈ [resp2Created], q.state ≠ "completed" ∧ q.state ≠ "failed") ∧
    resp2Failed.state = "failed" ∧
    ((waitForJob "j2" ([resp2Created] ++ [resp2Failed])).pollTimes.length = 1 + 1 ∧
      (∀ msg, resp2Failed.error = some msg →
        (waitForJob "j2" ([resp2Created] ++ [resp2Failed])).outcome =
          WaitOutcome.failure ("Job " ++ "j2" ++ " failed: " ++ msg)) ∧
      (resp2Failed.error = none →
        (waitForJob "j2" ([resp2Created] ++ [resp2Failed])).outcome =
          WaitOutcome.failure ("Job " ++ "j2" ++ " failed: " ++ "Unknown error"))) :=
  ⟨by intro q hq; simp only [List.mem_singleton] at hq; rw [hq]; exact ⟨by decide, by decide⟩,
    rfl,
    c4_failed_poll "j2" [resp2Created] resp2Failed
      (by intro q hq; simp only [List.mem_singleton] at hq; rw [hq]
          exact ⟨by decide, by decide⟩)
      rfl⟩

theorem waitForJobAux_nonterminal (jobId : String)
    (resps : List QueueJobStatusResponse)
    (h : ∀ r ∈ resps, r.state ≠ "completed" ∧ r.state ≠ "failed") :
    ∀ t, (waitForJobAux jobId t resps).outcome = WaitOutcome.pending ∧
      (waitForJobAux jobId t resps).pollTimes =
        (List.range resps.length).map (fun i => t + i * pollInterval) := by
  induction resps with
  | nil => intro t; simp [waitForJobAux]
  | cons r rest ih =>
    intro t
    have hr := h r (List.mem_cons_self r rest)
    have hrest : ∀ x ∈ rest, x.state ≠ "completed" ∧ x.state ≠ "failed" :=
      fun x hx => h x (List.mem_cons_of_mem r hx)
    have ih2 := ih hrest (t + pollInterval)
    constructor
    · simp [waitForJobAux, hr.1, hr.2, ih2.1]
    · have hstep : (waitForJobAux jobId t (r :: rest)).pollTimes =
          t :: (waitForJobAux jobId (t + pollInterval) rest).pollTimes := by
        simp [waitForJobAux, hr.1, hr.2]
      rw [hstep, ih2.2, List.length_cons, List.range_succ_eq_map, List.map_cons,
        List.map_map]
      have hfun : ((fun i => t + i * pollInterval) ∘ Nat.succ) =
          (fun i => (t + pollInterval) + i * pollInterval) := by
        funext i
        show t + (i + 1) * pollInterval = t + pollInterval + i * pollInterval
        ring
      rw [hfun]
      simp

/-- C5: the wait-loop terminates only on completed or failed. Against any
finite cut of the server's status sequence in which every polled state is
non-terminal — created, active, cancelled, archived, anything but
completed and failed — the loop consumes every response, issuing one
status request per response at consecutive multiples of the fixed 1000 ms
interval, and is still pending (it would sleep and poll again): no
maximum attempt count or overall timeout ever stops it, so a status
sequence that never reaches completed or failed makes waitForJob poll
forever. -/
theorem c5_nonterminal_polls_forever (jobId : String)
    (resps : List QueueJobStatusResponse)
    (h : ∀ r ∈ resps, r.state ≠ "completed" ∧ r.state ≠ "failed") :
    (waitForJob jobId resps).outcome = WaitOutcome.pending ∧
    (waitForJob jobId resps).pollTimes.length = resps.length ∧
    (waitForJob jobId resps).pollTimes =
      (List.range resps.length).map (fun i => i * pollInterval) := by
  have key := waitForJobAux_nonterminal jobId resps h 0
  refine ⟨key.1, ?_, ?_⟩
  · rw [waitForJob, key.2]
    simp
  · rw [waitForJob, key.2]
    simp

/-- A poll response in state cancelled: the loop treats it as
non-terminal and keeps polling. -/
def resp3Cancelled : QueueJobStatusResponse :=
  { id := "j3", state := "cancelled", output := none, error := none }

/-- A poll response in state active for job j3. -/
def resp3Active : QueueJobStatusResponse :=
  { id := "j3", state := "active", output := none, error := none }

/-- Concrete instance of C5: a status sequence [active, cancelled,
cancelled] leaves waitForJob still polling after 3 requests — cancelled
does not stop the loop. -/
theorem c5_nonterminal_polls_forever_witness :
    (∀ r ∈ [resp3Active, resp3Cancelled, resp3Cancelled],
      r.state ≠ "completed" ∧ r.state ≠ "failed") ∧
    ((waitForJob "j3" [resp3Active, resp3Cancelled, resp3Cancelled]).outcome =
        WaitOutcome.pending ∧
      (waitForJob "j3" [resp3Active, resp3Cancelled, resp3Cancelled]).pollTimes.length = 3 ∧
      (waitForJob "j3" [resp3Active, resp3Cancelled, resp3Cancelled]).pollTimes =
        (List.range 3).map (fun i => i * pollInterval)) :=
  ⟨by decide, c5_nonterminal_polls_forever "j3" [resp3Active, resp3Cancelled, resp3Cancelled]
    (by decide)⟩

/-- C10: on a completed poll, the empty-string markdown is treated the
same as an absent one by the `||` fallback chain. When the output's
markdown field is the empty string and the content field holds a
non-empty string, wait() resolves with that content; when markdown and
content are each absent or empty, wait() still resolves successfully,
with markdown equal to the empty string. -/
theorem c10_empty_markdown_fallback (jobId : String)
    (r : QueueJobStatusResponse) (hst : r.state = "completed") :
    (∀ c, c ≠ "" → r.output.bind QueueJobOutput.markdown = some "" →
      r.output.bind QueueJobOutput.content = some c →
      (waitForJob jobId [r]).outcome =
        WaitOutcome.success { success := true, markdown := c, state := "completed" }) ∧
    ((r.output.bind QueueJobOutput.markdown = none ∨
        r.output.bind QueueJobOutput.markdown = some "") →
      (r.output.bind QueueJobOutput.content = none ∨
        r.output.bind QueueJobOutput.content = some "") →
      (waitForJob jobId [r]).outcome =
        WaitOutcome.success { success := true, markdown := "", state := "completed" }) := by
  have hout : (waitForJob jobId [r]).outcome =
      WaitOutcome.success
        { success := true, markdown := completedMarkdown r, state := "completed" } := by
    simp [waitForJob, waitForJobAux, hst]
  constructor
  · intro c hc hm hcont
    rw [hout]
    have : completedMarkdown r = c := by
      simp [completedMarkdown, hm, hcont, jsOrString]
    rw [this]
  · intro hm hcont
    rw [hout]
    have : completedMarkdown r = "" := by
      rcases hm with hm | hm <;> rcases hcont with hc | hc <;>
        simp [completedMarkdown, hm, hc, jsOrString]
    rw [this]

/-- A completed poll response whose markdown is the empty string while
its content is non-empty. -/
def resp4Completed : QueueJobStatusResponse :=
  { id := "j4", state := "completed",
    output := some { content := some "body text", markdown := some "" },
    error := none }

/-- Concrete instance of C10: completed output with empty markdown and
content "body text" resolves with markdown "body text". -/
theorem c10_empty_markdown_fallback_witness :
    resp4Completed.state = "completed" ∧
    ((∀ c, c ≠ "" → resp4Completed.output.bind QueueJobOutput.markdown = some "" →
      resp4Completed.output.bind QueueJobOutput.content = some c →
      (waitForJob "j4" [resp4Completed]).outcome =
        WaitOutcome.success { success := true, markdown := c, state := "completed" }) ∧
    ((resp4Completed.output.bind QueueJobOutput.markdown = none ∨
        resp4Completed.output.bind QueueJobOutput.markdown = some "") →
      (resp4Completed.output.bind QueueJobOutput.content = none ∨
        resp4Completed.output.bind QueueJobOutput.content = some "") →
      (waitForJob "j4" [resp4Completed]).outcome =
        WaitOutcome.success { success := true, markdown := "", state := "completed" })) :=
  ⟨rfl, c10_empty_markdown_fallback "j4" resp4Completed rfl⟩

/- ------------------------------------------------------------------
   Event-stream adapter: Flense.subscribeToJob (src/unnamed/part_000
   lines 822-922), with handleStatus at lines 840-847.
   ------------------------------------------------------------------ -/

/-- Mirror of the `output` field of the `JobStatus` interface (source
lines 104-113). -/
structure JobStatusOutput where
  documentId : Option String
  content : Option String
  markdown : Option String
  processingTime : Option Nat
deriving DecidableEq, Repr

/-- Mirror of the `JobStatus` interface (source lines 96-126), restricted
to the fields the adapter and its callbacks consume. -/
structure JobStatus where
  id : String
  state : String
  output : Option JobStatusOutput
  error : Option String
deriving DecidableEq, Repr

/-- Mirror of the `ProgressUpdate` interface (source lines 131-144). -/
structure ProgressUpdate where
  progress : Nat
  stage : String
  currentPage : Option Nat
  totalPages : Option Nat
deriving DecidableEq, Repr

/-- Mirror of the `ContentChunk` interface (source lines 149-154). -/
structure ContentChunk where
  page : Nat
  content : String
deriving DecidableEq, Repr

/-- Result of running `JSON.parse` plus the cast on an event payload:
either the deserialized value, or the text of the exception thrown. -/
inductive Parsed (A : Type) where
  | ok (value : A)
  | error (e : String)
deriving DecidableEq, Repr

/-- One inbound server-sent event, by event name. Each data-bearing event
carries the result of running `JSON.parse` plus the cast on its payload:
`Parsed.ok` the deserialized value, or `Parsed.error e` when
deserialization throws exception text `e`. `timeout` carries no payload;
`connectionError` is a transport-level error (`eventSource.onerror`). -/
inductive SseEvent where
  | status (payload : Parsed JobStatus)
  | progress (payload : Parsed ProgressUpdate)
  | content (payload : Parsed ContentChunk)
  | complete (payload : Parsed JobStatus)
  | failed (payload : Parsed JobStatus)
  | cancelled (payload : Parsed JobStatus)
  | timeout
  | connectionError
deriving DecidableEq, Repr

/-- One observable callback invocation made by the adapter. -/
inductive CallbackCall where
  | onStatus (s : JobStatus)
  | onProgress (p : ProgressUpdate)
  | onContent (c : ContentChunk)
  | onComplete (s : JobStatus)
  | onFailed (s : JobStatus)
  | onError (message : String)
deriving DecidableEq, Repr

/-- Mirror of `handleStatus` (source lines 840-847): invoke the status
callback, then additionally the complete callback when the payload's
state is completed, or the failed callback when it is failed. -/
def handleStatus (data : JobStatus) : List CallbackCall :=
  CallbackCall.onStatus data ::
    (if data.state = "completed" then [CallbackCall.onComplete data]
     else if data.state = "failed" then [CallbackCall.onFailed data]
     else [])

/-- The adapter's reaction to one event: the callback invocations it
makes, paired with whether it closes the EventSource. Mirrors the seven
listeners of `subscribeToJob` (source lines 849-917): status routes
through `handleStatus`; progress and content invoke their own callback;
complete, failed and cancelled route through `handleStatus` and then
close; a deserialization failure on any data-bearing event invokes the
error callback with a message naming the event type and — because the
`close()` call sits after the parse inside the try block — does not
close; timeout closes silently; a transport error invokes the error
callback and closes. -/
def onSseEvent : SseEvent → List CallbackCall × Bool
  | SseEvent.status (Parsed.ok d) => (handleStatus d, false)
  | SseEvent.status (Parsed.error e) =>
      ([CallbackCall.onError ("Failed to parse status event: " ++ e)], false)
  | SseEvent.progress (Parsed.ok p) => ([CallbackCall.onProgress p], false)
  | SseEvent.progress (Parsed.error e) =>
      ([CallbackCall.onError ("Failed to parse progress event: " ++ e)], false)
  | SseEvent.content (Parsed.ok c) => ([CallbackCall.onContent c], false)
  | SseEvent.content (Parsed.error e) =>
      ([CallbackCall.onError ("Failed to parse content event: " ++ e)], false)
  | SseEvent.complete (Parsed.ok d) => (handleStatus d, true)
  | SseEvent.complete (Parsed.error e) =>
      ([CallbackCall.onError ("Failed to parse complete event: " ++ e)], false)
  | SseEvent.failed (Parsed.ok d) => (handleStatus d, true)
  | SseEvent.failed (Parsed.error e) =>
      ([CallbackCall.onError ("Failed to parse failed event: " ++ e)], false)
  | SseEvent.cancelled (Parsed.ok d) => (handleStatus d, true)
  | SseEvent.cancelled (Parsed.error e) =>
      ([CallbackCall.onError ("Failed to parse cancelled event: " ++ e)], false)
  | SseEvent.timeout => ([], true)
  | SseEvent.connectionError => ([CallbackCall.onError "SSE connection error"], true)

/-- Run one subscription against the inbound event sequence: dispatch
each event in order, stopping — no further listener fires — once the
EventSource has been closed. The result is the full sequence of callback
invocations the consumer observes. -/
def runStream : List SseEvent → List CallbackCall
  | [] => []
  | e :: rest =>
    let r := onSseEvent e
    r.1 ++ (if r.2 then [] else runStream rest)

/-- C6 counterexample: a successfully deserialized `cancelled` event is
routed through `handleStatus`, which is exactly the completed/failed
branching — so a cancelled event whose payload carries state "completed"
does invoke the complete callback, contradicting the claim that neither
the complete nor the failed callback is invoked regardless of the
payload's state field. -/
theorem c6_cancelled_counterexample :
    CallbackCall.onComplete { id := "j5", state := "completed", output := none, error := none } ∈
      runStream [SseEvent.cancelled (Parsed.ok
        { id := "j5", state := "completed", output := none, error := none })] := by
  decide

/-- C6 as amended: for every successfully deserialized `cancelled` event,
the adapter invokes the status callback and routes the payload through
the same completed/failed branching as a `status` event (additionally
invoking the complete callback when the payload's state is "completed",
or the failed callback when it is "failed", and neither otherwise), and
then closes the stream, so no later event of the same stream is
delivered. -/
theorem c6_cancelled_closes_after_branching (d : JobStatus) (rest : List SseEvent) :
    runStream (SseEvent.cancelled (Parsed.ok d) :: rest) =
      CallbackCall.onStatus d ::
        (if d.state = "completed" then [CallbackCall.onComplete d]
         else if d.state = "failed" then [CallbackCall.onFailed d]
         else []) := by
  simp [runStream, onSseEvent, handleStatus]

/-- C7: an unparseable payload on a `progress` event invokes the error
callback with a message identifying the progress event as the one that
failed to parse, does not close the stream, and a subsequent valid
`content` event on the same stream is still delivered to the content
callback (and the rest of the stream keeps being processed). -/
theorem c7_progress_parse_error_keeps_stream (e : String) (c : ContentChunk)
    (rest : List SseEvent) :
    runStream (SseEvent.progress (Parsed.error e) ::
        SseEvent.content (Parsed.ok c) :: rest) =
      CallbackCall.onError ("Failed to parse progress event: " ++ e) ::
        CallbackCall.onContent c :: runStream rest ∧
    (onSseEvent (SseEvent.progress (Parsed.error e))).2 = false := by
  constructor
  · simp [runStream, onSseEvent]
  · rfl

/- ------------------------------------------------------------------
   Subscription cancellation race: ParseJob.subscribe (src/unnamed/
   part_000 lines 477-490).
   ------------------------------------------------------------------ -/

/-- State of the closure created by one `ParseJob.subscribe(callbacks)`
call: the local `cancelled` flag, and whether the EventSource
subscription has been opened (`this.client.subscribeToJob` called). -/
structure SubscriptionState where
  cancelled : Bool
  streamOpened : Bool
deriving DecidableEq, Repr

/-- Events acting on one subscribe() closure, in event-loop order:
`resolve` is the `getJobId().then(...)` continuation running once the job
identifier has resolved; `cancel` is an invocation of the returned
unsubscribe function. -/
inductive SubEvent where
  | resolve
  | cancel
deriving DecidableEq, Repr

/-- One step of the subscribe() closure (source lines 478-489): the
resolution continuation returns without opening the stream when
`cancelled` is already set, and otherwise opens the EventSource
subscription; the returned function sets `cancelled` to true (and closes
an already-open stream, which does not reopen anything). -/
def subscribeStep (s : SubscriptionState) : SubEvent → SubscriptionState
  | SubEvent.resolve => if s.cancelled then s else { s with streamOpened := true }
  | SubEvent.cancel => { s with cancelled := true }

/-- Run a sequence of events against one subscribe() closure. -/
def subscribeRun : SubscriptionState → List SubEvent → SubscriptionState
  | s, [] => s
  | s, e :: rest => subscribeRun (subscribeStep s e) rest

/-- State right after subscribe() returns: not cancelled, no stream. -/
def subscribeInit : SubscriptionState := { cancelled := false, streamOpened := false }

theorem subscribeRun_no_resolve (l : List SubEvent) (s : SubscriptionState)
    (h : SubEvent.resolve ∉ l) :
    (subscribeRun s l).streamOpened = s.streamOpened := by
  induction l generalizing s with
  | nil => rfl
  | cons e rest ih =>
    have he : e ≠ SubEvent.resolve := fun hc => h (by simp [hc])
    have hrest : SubEvent.resolve ∉ rest := fun hm => h (List.mem_cons_of_mem _ hm)
    cases e with
    | resolve => exact absurd rfl he
    | cancel => exact ih { s with cancelled := true } hrest

theorem subscribeStep_cancelled_mono (s : SubscriptionState) (e : SubEvent)
    (h : s.cancelled = true) : (subscribeStep s e).cancelled = true := by
  cases e with
  | resolve => simp [subscribeStep, h]
  | cancel => rfl

theorem subscribeRun_cancelled_mono (l : List SubEvent) (s : SubscriptionState)
    (h : s.cancelled = true) : (subscribeRun s l).cancelled = true := by
  induction l generalizing s with
  | nil => exact h
  | cons e rest ih => exact ih _ (subscribeStep_cancelled_mono s e h)

theorem subscribeRun_cancel_mem (l : List SubEvent) (s : SubscriptionState)
    (h : SubEvent.cancel ∈ l) :
    (subscribeRun s l).cancelled = true := by
  induction l generalizing s with
  | nil => simp at h
  | cons e rest ih =>
    cases e with
    | cancel => exact subscribeRun_cancelled_mono rest _ rfl
    | resolve =>
      have hrest : SubEvent.cancel ∈ rest := by
        rcases List.mem_cons.mp h with h1 | h1
        · cases h1
        · exact h1
      exact ih _ hrest

theorem subscribeRun_cancelled_keeps_closed (l : List SubEvent) (s : SubscriptionState)
    (h : s.cancelled = true) :
    (subscribeRun s l).streamOpened = s.streamOpened := by
  induction l generalizing s with
  | nil => rfl
  | cons e rest ih =>
    cases e with
    | resolve => simp [subscribeRun, subscribeStep, h, ih s h]
    | cancel =>
      have hs : ({ s with cancelled := true } : SubscriptionState).cancelled = true := rfl
      exact ih { s with cancelled := true } hs

theorem subscribeRun_append (a b : List SubEvent) (s : SubscriptionState) :
    subscribeRun s (a ++ b) = subscribeRun (subscribeRun s a) b := by
  induction a generalizing s with
  | nil => rfl
  | cons e rest ih => simp [subscribeRun, ih]

/-- C8: when the cancellation function returned by subscribe() is
invoked before the job identifier resolves — the event history is any
`pre` containing a cancel and no resolution, followed by anything,
including the later resolution of the creation promise — the EventSource
stream is never opened for that handle. -/
theorem c8_cancel_before_resolve_never_opens (pre post : List SubEvent)
    (hc : SubEvent.cancel ∈ pre) (hr : SubEvent.resolve ∉ pre) :
    (subscribeRun subscribeInit (pre ++ post)).streamOpened = false := by
  rw [subscribeRun_append]
  have h1 : (subscribeRun subscribeInit pre).streamOpened = false :=
    subscribeRun_no_resolve pre subscribeInit hr
  have h2 : (subscribeRun subscribeInit pre).cancelled = true :=
    subscribeRun_cancel_mem pre subscribeInit hc
  rw [subscribeRun_cancelled_keeps_closed post _ h2, h1]

/-- Concrete instance of C8: unsubscribe fires first, then the job
identifier resolves; the stream never opens. -/
theorem c8_cancel_before_resolve_never_opens_witness :
    SubEvent.cancel ∈ [SubEvent.cancel] ∧ SubEvent.resolve ∉ [SubEvent.cancel] ∧
    (subscribeRun subscribeInit ([SubEvent.cancel] ++ [SubEvent.resolve])).streamOpened = false :=
  ⟨by decide, by decide,
    c8_cancel_before_resolve_never_opens [SubEvent.cancel] [SubEvent.resolve]
      (by decide) (by decide)⟩

/- ------------------------------------------------------------------
   Per-job configuration bundle (C9). The ocr/tables/images toggles and
   their defaults are the ParseOptions record embedded above from
   src/unnamed/part_000; the page-streaming and caching toggles are
   modelled from the spec, since their implementing code is not under
   src/ (README.md documents withPageStreaming/disableCaching and the
   React hook in src/unnamed/part_001 lines 181-186 calls them, but the
   ParseJob class under src/ carries only the three toggles).
   ------------------------------------------------------------------ -/

/-- Modelled from the spec: the full per-job configuration bundle — the
implementation of the per-page-streaming and caching toggles is missing
from src/. Independent boolean feature toggles for OCR, table detection,
image extraction and per-page streaming, plus a caching-bypass toggle;
every toggle defaults to the fastest/cheapest setting: features disabled,
cache enabled. -/
structure JobConfig where
  ocr : Bool := false
  tables : Bool := false
  images : Bool := false
  pageStreaming : Bool := false
  caching : Bool := true
deriving DecidableEq, Repr

/-- The configuration of a job on which no fluent call was made. -/
def defaultJobConfig : JobConfig := {}

/-- Fluent OCR toggle over the full bundle. -/
def JobConfig.withOCR (c : JobConfig) (enabled : Bool) : JobConfig :=
  { c with ocr := enabled }

/-- Fluent table-detection toggle over the full bundle. -/
def JobConfig.withTables (c : JobConfig) (enabled : Bool) : JobConfig :=
  { c with tables := enabled }

/-- Fluent image-extraction toggle over the full bundle. -/
def JobConfig.withImages (c : JobConfig) (enabled : Bool) : JobConfig :=
  { c with images := enabled }

/-- Modelled from the spec: fluent per-page-streaming toggle
(`withPageStreaming`, documented in README.md and called by the React
hook; implementation missing from src/). -/
def JobConfig.withPageStreaming (c : JobConfig) (enabled : Bool) : JobConfig :=
  { c with pageStreaming := enabled }

/-- Modelled from the spec: caching bypass (`disableCaching`, documented
in README.md and called by the React hook; implementation missing from
src/). -/
def JobConfig.disableCaching (c : JobConfig) : JobConfig :=
  { c with caching := false }

/-- C9: the per-job configuration is the bundle of boolean toggles for
OCR, table detection, image extraction and per-page streaming plus the
caching toggle; every toggle defaults to the fastest/cheapest setting —
each feature disabled and the cache enabled (witnessed both by the
in-source ParseJob defaults and by the modelled full bundle) — and the
toggles are independent: each fluent call changes only its own field. -/
theorem c9_config_toggles_defaults (c : JobConfig) (b : Bool) :
    (pjInit.options.ocr = false ∧ pjInit.options.tables = false ∧
      pjInit.options.images = false) ∧
    (defaultJobConfig.ocr = false ∧ defaultJobConfig.tables = false ∧
      defaultJobConfig.images = false ∧ defaultJobConfig.pageStreaming = false ∧
      defaultJobConfig.caching = true) ∧
    ((c.withOCR b).ocr = b ∧ (c.withOCR b).tables = c.tables ∧
      (c.withOCR b).images = c.images ∧ (c.withOCR b).pageStreaming = c.pageStreaming ∧
      (c.withOCR b).caching = c.caching) ∧
    ((c.withTables b).tables = b ∧ (c.withTables b).ocr = c.ocr ∧
      (c.withTables b).images = c.images ∧ (c.withTables b).pageStreaming = c.pageStreaming ∧
      (c.withTables b).caching = c.caching) ∧
    ((c.withImages b).images = b ∧ (c.withImages b).ocr = c.ocr ∧
      (c.withImages b).tables = c.tables ∧ (c.withImages b).pageStreaming = c.pageStreaming ∧
      (c.withImages b).caching = c.caching) ∧
    ((c.withPageStreaming b).pageStreaming = b ∧ (c.withPageStreaming b).ocr = c.ocr ∧
      (c.withPageStreaming b).tables = c.tables ∧ (c.withPageStreaming b).images = c.images ∧
      (c.withPageStreaming b).caching = c.caching) ∧
    (c.disableCaching.caching = false ∧ c.disableCaching.ocr = c.ocr ∧
      c.disableCaching.tables = c.tables ∧ c.disableCaching.images = c.images ∧
      c.disableCaching.pageStreaming = c.pageStreaming) := by
  refine ⟨⟨rfl, rfl, rfl⟩, ⟨rfl, rfl, rfl, rfl, rfl⟩, ⟨rfl, rfl, rfl, rfl, rfl⟩,
    ⟨rfl, rfl, rfl, rfl, rfl⟩, ⟨rfl, rfl, rfl, rfl, rfl⟩, ⟨rfl, rfl, rfl, rfl, rfl⟩,
    ⟨rfl, rfl, rfl, rfl, rfl⟩⟩
